import Mathlib

/-
Verification of the bootspec crate's versioned schema and its
serialization/deserialization contract.

Sources embedded:
- src/bootspec/src/lib.rs: the wrapper types SpecialisationName and
  SystemConfigurationRoot, and the crate-level SCHEMA_VERSION / JSON_FILENAME
  constants (re-exports of the v1 module's constants).
- src/bootspec/src/generation.rs: the version-discriminating Generation enum,
  its serde external tagging with lowercase variant names, and Generation::version.
- The v1 module (crate::v1) is declared by lib.rs but its file is not part of
  the sources; the GenerationV1 record, its serde field rules and the v1
  constants are modelled from the specification, with the behavior pinned by
  the test suite in generation.rs (error messages, null-vs-absent handling,
  optional field defaults) taken as authoritative.

JSON documents are modelled by an inductive Json type whose objects are
association lists in document order; serde_json's streaming struct
deserialization is modelled by a fold over those entries filling a builder of
optional field slots, exactly mirroring derived serde semantics: values are
decoded at the entry where they occur (so a type error in an entry surfaces
before a missing-field error), duplicate known fields are rejected, unknown
fields are ignored, required fields are checked at end of input, Option fields
accept null as None, and map-typed fields with a default reject an explicit
null ("expected a map") while mere absence yields the empty map.
-/

namespace Bootspec

/-- A JSON-like structured value. Objects are association lists of key-value
pairs in document order; numbers are modelled as integers (no claim involves
fractional numbers). -/
inductive Json : Type where
  | null : Json
  | bool : Bool → Json
  | num : Int → Json
  | str : String → Json
  | arr : List Json → Json
  | obj : List (String × Json) → Json

/-- A wrapper type describing the name of a NixOS specialisation
(src/bootspec/src/lib.rs, newtype over String). -/
structure SpecialisationName where
  val : String
  deriving DecidableEq

/-- Rust derive(Default) for SpecialisationName: wraps the default (empty) string. -/
instance : Inhabited SpecialisationName := ⟨⟨""⟩⟩

/-- A wrapper type describing the root directory of a NixOS system configuration
(src/bootspec/src/lib.rs, newtype over PathBuf; paths are modelled as strings). -/
structure SystemConfigurationRoot where
  path : String
  deriving DecidableEq

/-- Rust derive(Default) for SystemConfigurationRoot: wraps the default (empty) path. -/
instance : Inhabited SystemConfigurationRoot := ⟨⟨""⟩⟩

/-- An extension payload: a map from string keys to opaque JSON values
(Rust HashMap of String to serde_json Value), modelled as an association list. -/
abbrev ExtensionPayload := List (String × Json)

/-- Modelled from the spec: the v1 Generation Record (module crate::v1, whose
file is not among the sources). Field set, wire names and optionality follow
the spec's field table; paths are modelled as strings; the specialisation and
extensions maps are modelled as association lists. The type is a single
constructor inductive because specialisation nests Generation Records. -/
inductive GenerationV1 : Type where
  | mk
      (system : String)
      (init : String)
      (kernel : String)
      (kernel_params : List String)
      (label : String)
      (toplevel : SystemConfigurationRoot)
      (initrd : Option String)
      (initrd_secrets : Option String)
      (specialisation : List (SpecialisationName × GenerationV1))
      (extensions : List (String × ExtensionPayload)) : GenerationV1

def GenerationV1.system : GenerationV1 → String
  | .mk s _ _ _ _ _ _ _ _ _ => s

def GenerationV1.init : GenerationV1 → String
  | .mk _ i _ _ _ _ _ _ _ _ => i

def GenerationV1.kernel : GenerationV1 → String
  | .mk _ _ k _ _ _ _ _ _ _ => k

def GenerationV1.kernel_params : GenerationV1 → List String
  | .mk _ _ _ kp _ _ _ _ _ _ => kp

def GenerationV1.label : GenerationV1 → String
  | .mk _ _ _ _ l _ _ _ _ _ => l

def GenerationV1.toplevel : GenerationV1 → SystemConfigurationRoot
  | .mk _ _ _ _ _ t _ _ _ _ => t

def GenerationV1.initrd : GenerationV1 → Option String
  | .mk _ _ _ _ _ _ ir _ _ _ => ir

def GenerationV1.initrd_secrets : GenerationV1 → Option String
  | .mk _ _ _ _ _ _ _ irs _ _ => irs

def GenerationV1.specialisation : GenerationV1 → List (SpecialisationName × GenerationV1)
  | .mk _ _ _ _ _ _ _ _ sp _ => sp

def GenerationV1.extensions : GenerationV1 → List (String × ExtensionPayload)
  | .mk _ _ _ _ _ _ _ _ _ ex => ex

/-- An enum of all available bootspec versions
(src/bootspec/src/generation.rs, enum Generation, non-exhaustive). -/
inductive Generation : Type where
  | V1 : GenerationV1 → Generation

/-- Modelled from the spec: the v1 schema version constant (crate::v1::SCHEMA_VERSION,
file not among the sources); the v1 variant carries schema version 1. -/
def v1_SCHEMA_VERSION : Nat := 1

/-- Modelled from the spec: the v1 canonical, version-tied filename constant
(crate::v1::JSON_FILENAME, file not among the sources). -/
def v1_JSON_FILENAME : String := "boot.v" ++ toString v1_SCHEMA_VERSION ++ ".json"

/-- The current bootspec schema version (src/bootspec/src/lib.rs); integer widths
are modelled as Nat. -/
def SCHEMA_VERSION : Nat := v1_SCHEMA_VERSION

/-- The current bootspec schema filename (src/bootspec/src/lib.rs). -/
def JSON_FILENAME : String := v1_JSON_FILENAME

/-- The version of the bootspec document (src/bootspec/src/generation.rs,
Generation::version): a fixed constant per variant. -/
def Generation.version : Generation → Nat
  | .V1 _ => v1_SCHEMA_VERSION

/-- Decode errors, as classes of serde error messages; render gives the
serde-like message text. -/
inductive DecodeError : Type where
  | unknownVariant : String → List String → DecodeError
  | missingField : String → DecodeError
  | duplicateField : String → DecodeError
  | invalidType : String → String → DecodeError
  | other : String → DecodeError
  deriving DecidableEq

/-- Render a decode error as a serde-like message string. For invalidType the
first component is the expected shape and the second the actual one. -/
def DecodeError.render : DecodeError → String
  | .unknownVariant tag expected =>
      "unknown variant " ++ tag ++ ", expected one of: " ++ String.intercalate ", " expected
  | .missingField f => "missing field " ++ f
  | .duplicateField f => "duplicate field " ++ f
  | .invalidType expected found => "invalid type: " ++ found ++ ", expected " ++ expected
  | .other msg => msg

/-- The serde-style description of a JSON value's shape, used in invalidType errors. -/
def typeName : Json → String
  | .null => "null"
  | .bool _ => "a boolean"
  | .num _ => "an integer"
  | .str _ => "a string"
  | .arr _ => "a sequence"
  | .obj _ => "a map"

/-- Decode a list of JSON values as strings (element decoding for Vec of String). -/
def decodeStrings : List Json → Except DecodeError (List String)
  | [] => .ok []
  | .str s :: rest => (decodeStrings rest).map (s :: ·)
  | v :: _ => .error (.invalidType "a string" (typeName v))

/-- Decode a JSON value as an ordered sequence of strings (kernelParams). -/
def decodeStringList : Json → Except DecodeError (List String)
  | .arr xs => decodeStrings xs
  | v => .error (.invalidType "a sequence" (typeName v))

/-- Decode a JSON value as an optional path: serde Option of PathBuf accepts
null as None and a string as Some. -/
def decodeOptPath : Json → Except DecodeError (Option String)
  | .null => .ok none
  | .str s => .ok (some s)
  | v => .error (.invalidType "a string" (typeName v))

/-- Decode one extension payload: must be a map from strings to opaque values;
an explicit null is rejected ("expected a map"). -/
def decodeExtPayload : Json → Except DecodeError ExtensionPayload
  | .obj kvs => .ok kvs
  | v => .error (.invalidType "a map" (typeName v))

/-- Decode the extensions map entries: each named extension's value must itself
be a map. -/
def decodeExtEntries : List (String × Json) → Except DecodeError (List (String × ExtensionPayload))
  | [] => .ok []
  | (k, v) :: rest => do
      let p ← decodeExtPayload v
      let tail ← decodeExtEntries rest
      .ok ((k, p) :: tail)

/-- Builder of optional field slots used by the streaming struct deserializer.
A slot is none while the field has not been seen. -/
structure V1Builder where
  system : Option String := none
  init : Option String := none
  kernel : Option String := none
  kernelParams : Option (List String) := none
  label : Option String := none
  toplevel : Option SystemConfigurationRoot := none
  initrd : Option (Option String) := none
  initrdSecrets : Option (Option String) := none
  specialisation : Option (List (SpecialisationName × GenerationV1)) := none
  extensions : Option (List (String × ExtensionPayload)) := none

/-- The builder with every slot empty (start of struct deserialization). -/
def emptyV1Builder : V1Builder := {}

/-- End of input: required fields are checked in field declaration order and
the optional ones receive their defaults (None for the Option paths, the empty
map for specialisation and extensions). -/
def finishV1 (b : V1Builder) : Except DecodeError GenerationV1 :=
  match b.system with
  | none => .error (.missingField "system")
  | some system =>
    match b.init with
    | none => .error (.missingField "init")
    | some init =>
      match b.kernel with
      | none => .error (.missingField "kernel")
      | some kernel =>
        match b.kernelParams with
        | none => .error (.missingField "kernelParams")
        | some kernelParams =>
          match b.label with
          | none => .error (.missingField "label")
          | some label =>
            match b.toplevel with
            | none => .error (.missingField "toplevel")
            | some toplevel =>
              .ok (GenerationV1.mk system init kernel kernelParams label toplevel
                (b.initrd.getD none) (b.initrdSecrets.getD none)
                (b.specialisation.getD []) (b.extensions.getD []))

/-- The wire field names recognized by the v1 Generation Record deserializer. -/
def v1FieldNames : List String :=
  ["system", "init", "kernel", "kernelParams", "label", "toplevel",
   "initrd", "initrdSecrets", "specialisation", "extensions"]

/-- Decode one struct entry for every field except the recursive
specialisation: a known field fills its builder slot (rejecting a duplicate),
with its value decoded at this point so that type errors surface in document
order; an unknown field is ignored (lenient forward-compatible reading). The
map-typed extensions field rejects an explicit null with an expected-a-map
invalid-type error. -/
def stepField (k : String) (v : Json) (b : V1Builder) : Except DecodeError V1Builder :=
  if k = "system" then
    match b.system with
    | some _ => .error (.duplicateField "system")
    | none =>
      match v with
      | .str s => .ok { b with system := some s }
      | _ => .error (.invalidType "a string" (typeName v))
  else if k = "init" then
    match b.init with
    | some _ => .error (.duplicateField "init")
    | none =>
      match v with
      | .str s => .ok { b with init := some s }
      | _ => .error (.invalidType "a string" (typeName v))
  else if k = "kernel" then
    match b.kernel with
    | some _ => .error (.duplicateField "kernel")
    | none =>
      match v with
      | .str s => .ok { b with kernel := some s }
      | _ => .error (.invalidType "a string" (typeName v))
  else if k = "kernelParams" then
    match b.kernelParams with
    | some _ => .error (.duplicateField "kernelParams")
    | none =>
      match decodeStringList v with
      | .ok xs => .ok { b with kernelParams := some xs }
      | .error e => .error e
  else if k = "label" then
    match b.label with
    | some _ => .error (.duplicateField "label")
    | none =>
      match v with
      | .str s => .ok { b with label := some s }
      | _ => .error (.invalidType "a string" (typeName v))
  else if k = "toplevel" then
    match b.toplevel with
    | some _ => .error (.duplicateField "toplevel")
    | none =>
      match v with
      | .str s => .ok { b with toplevel := some ⟨s⟩ }
      | _ => .error (.invalidType "a string" (typeName v))
  else if k = "initrd" then
    match b.initrd with
    | some _ => .error (.duplicateField "initrd")
    | none =>
      match decodeOptPath v with
      | .ok o => .ok { b with initrd := some o }
      | .error e => .error e
  else if k = "initrdSecrets" then
    match b.initrdSecrets with
    | some _ => .error (.duplicateField "initrdSecrets")
    | none =>
      match decodeOptPath v with
      | .ok o => .ok { b with initrdSecrets := some o }
      | .error e => .error e
  else if k = "extensions" then
    match b.extensions with
    | some _ => .error (.duplicateField "extensions")
    | none =>
      match v with
      | .obj evs =>
          match decodeExtEntries evs with
          | .ok m => .ok { b with extensions := some m }
          | .error e => .error e
      | _ => .error (.invalidType "a map" (typeName v))
  else .ok b

mutual

/-- Modelled from the spec: serde deserialization of the v1 Generation Record
(crate::v1, file not among the sources), with behavior pinned by the tests in
generation.rs. A struct is decoded from a map; any other shape is an
invalid-type error. -/
def decodeGenerationV1 : Json → Except DecodeError GenerationV1
  | .obj kvs => decodeFields kvs emptyV1Builder
  | v => .error (.invalidType "struct GenerationV1" (typeName v))

/-- Process the object's entries in document order, decoding each known field's
value where it occurs (the recursive specialisation field inline, every other
field through stepField) and checking required fields at end of input. The
map-typed specialisation field rejects an explicit null with an expected-a-map
invalid-type error, while its absence defaults to the empty map in finishV1. -/
def decodeFields : List (String × Json) → V1Builder → Except DecodeError GenerationV1
  | [], b => finishV1 b
  | (k, v) :: rest, b =>
      if k = "specialisation" then
        match b.specialisation with
        | some _ => .error (.duplicateField "specialisation")
        | none =>
          match v with
          | .obj svs =>
              match decodeSpecEntries svs with
              | .ok m => decodeFields rest { b with specialisation := some m }
              | .error e => .error e
          | _ => .error (.invalidType "a map" (typeName v))
      else
        match stepField k v b with
        | .ok b2 => decodeFields rest b2
        | .error e => .error e

/-- Decode the specialisation map entries: each name maps to a nested v1
Generation Record. -/
def decodeSpecEntries :
    List (String × Json) → Except DecodeError (List (SpecialisationName × GenerationV1))
  | [] => .ok []
  | (k, v) :: rest =>
      match decodeGenerationV1 v with
      | .ok g =>
          match decodeSpecEntries rest with
          | .ok m => .ok ((⟨k⟩, g) :: m)
          | .error e => .error e
      | .error e => .error e

end

/-- The combined per-entry step of the streaming struct deserializer: the
specialisation field exactly as handled inline by decodeFields, every other
field through stepField. -/
def stepEntry (k : String) (v : Json) (b : V1Builder) : Except DecodeError V1Builder :=
  if k = "specialisation" then
    match b.specialisation with
    | some _ => .error (.duplicateField "specialisation")
    | none =>
      match v with
      | .obj svs =>
          match decodeSpecEntries svs with
          | .ok m => .ok { b with specialisation := some m }
          | .error e => .error e
      | _ => .error (.invalidType "a map" (typeName v))
  else stepField k v b

/-- Deserialize a Generation document (src/bootspec/src/generation.rs): serde
external tagging with lowercase variant names requires a map with a single key;
the key selects the variant ("v1"), any other key is an unknown-variant error
naming the offending tag and the recognized set, and a non-map input or a map
with several keys fails to decode. -/
def decodeGeneration : Json → Except DecodeError Generation
  | .obj [] => .error (.other "invalid value: map, expected map with a single key")
  | .obj ((tag, v) :: rest) =>
      if tag = "v1" then
        match rest with
        | [] => (decodeGenerationV1 v).map Generation.V1
        | _ => .error (.other "invalid value: map, expected map with a single key")
      else .error (.unknownVariant tag ["v1"])
  | j => .error (.invalidType "map with a single key" (typeName j))

/-- Serialize an optional path: None becomes null, Some a string. -/
def encodeOptPath : Option String → Json
  | none => Json.null
  | some p => Json.str p

mutual

/-- Modelled from the spec: serde serialization of the v1 Generation Record
(crate::v1, file not among the sources): a map holding every field under its
fixed wire name (the external camelCase names are part of the wire contract),
in the spec field-table order. -/
def encodeGenerationV1 : GenerationV1 → Json
  | .mk system init kernel kernelParams label toplevel initrd initrdSecrets sp exts =>
      Json.obj
        [("system", Json.str system),
         ("init", Json.str init),
         ("kernel", Json.str kernel),
         ("kernelParams", Json.arr (kernelParams.map Json.str)),
         ("label", Json.str label),
         ("toplevel", Json.str toplevel.path),
         ("initrd", encodeOptPath initrd),
         ("initrdSecrets", encodeOptPath initrdSecrets),
         ("specialisation", Json.obj (encodeSpecEntries sp)),
         ("extensions", Json.obj (exts.map (fun p => (p.1, Json.obj p.2))))]

/-- Serialize the specialisation map entries: names are wire-transparent
wrappers of strings, values are nested v1 Generation Records. -/
def encodeSpecEntries : List (SpecialisationName × GenerationV1) → List (String × Json)
  | [] => []
  | (n, g) :: rest => (n.val, encodeGenerationV1 g) :: encodeSpecEntries rest

end

/-- Serialize a Generation document (src/bootspec/src/generation.rs): the
record's encoding wrapped under its own lowercase version tag key. -/
def encodeGeneration : Generation → Json
  | .V1 g => Json.obj [("v1", encodeGenerationV1 g)]

/-- The serde encoding of a bare string (a JSON string); SpecialisationName and
SystemConfigurationRoot are serde newtype wrappers and serialize transparently
as their contents. -/
def encodeString (s : String) : Json := Json.str s

/-- The serde encoding of a bare path (PathBuf serializes as a JSON string). -/
def encodePath (p : String) : Json := Json.str p

/-- Serialization of a SpecialisationName (src/bootspec/src/lib.rs, derived
serde on a newtype struct: transparent). -/
def encodeSpecialisationName (n : SpecialisationName) : Json := Json.str n.val

/-- Deserialization of a SpecialisationName (src/bootspec/src/lib.rs, derived
serde on a newtype struct: transparent). -/
def decodeSpecialisationName : Json → Except DecodeError SpecialisationName
  | .str s => .ok ⟨s⟩
  | v => .error (.invalidType "a string" (typeName v))

/-- Serialization of a SystemConfigurationRoot (src/bootspec/src/lib.rs,
derived serde on a newtype struct over PathBuf: transparent). -/
def encodeSystemConfigurationRoot (r : SystemConfigurationRoot) : Json := Json.str r.path

/-- Deserialization of a SystemConfigurationRoot (src/bootspec/src/lib.rs,
derived serde on a newtype struct over PathBuf: transparent). -/
def decodeSystemConfigurationRoot : Json → Except DecodeError SystemConfigurationRoot
  | .str s => .ok ⟨s⟩
  | v => .error (.invalidType "a string" (typeName v))

/-- The caller-supplied extension shape used by the test suite
(src/bootspec/src/generation.rs, struct TestExtension): one required string
field named test, aliased from the wire name key. -/
structure TestExtension where
  test : String
  deriving DecidableEq

/-- The caller-supplied extension shape with an optional field
(src/bootspec/src/generation.rs, struct TestOptionalExtension): an optional
string field named test, aliased from the wire name key. -/
structure TestOptionalExtension where
  test : Option String
  deriving DecidableEq

/-- Retype an opaque extension payload as a TestExtension: derived serde
deserialization of the payload map (the into_deserializer call in the tests):
the wire field key must be present with a string value; unknown entries are
ignored; a duplicate key entry is rejected. -/
def decodeTestExtension (kvs : ExtensionPayload) : Except DecodeError TestExtension :=
  match go kvs none with
  | .ok (some s) => .ok ⟨s⟩
  | .ok none => .error (.missingField "key")
  | .error e => .error e
where
  go : ExtensionPayload → Option String → Except DecodeError (Option String)
    | [], acc => .ok acc
    | (k, v) :: rest, acc =>
        if k = "key" then
          match acc with
          | some _ => .error (.duplicateField "key")
          | none =>
            match v with
            | .str s => go rest (some s)
            | _ => .error (.invalidType "a string" (typeName v))
        else go rest acc

/-- Retype an opaque extension payload as a TestOptionalExtension: as for
TestExtension, but an absent wire field key yields no value instead of a
missing-field error, and an explicit null is also accepted as no value. -/
def decodeTestOptionalExtension (kvs : ExtensionPayload) :
    Except DecodeError TestOptionalExtension :=
  match go kvs none with
  | .ok (some o) => .ok ⟨o⟩
  | .ok none => .ok ⟨none⟩
  | .error e => .error e
where
  go : ExtensionPayload → Option (Option String) → Except DecodeError (Option (Option String))
    | [], acc => .ok acc
    | (k, v) :: rest, acc =>
        if k = "key" then
          match acc with
          | some _ => .error (.duplicateField "key")
          | none =>
            match decodeOptPath v with
            | .ok o => go rest (some o)
            | .error e => .error e
        else go rest acc

/-- The literal document of the spec's concrete scenario (and the shape of the
valid_v1_json test). -/
def c7doc : Json :=
  Json.obj [("v1", Json.obj
    [("system", Json.str "x86_64-linux"),
     ("init", Json.str "/a/init"),
     ("kernel", Json.str "/a/bzImage"),
     ("kernelParams", Json.arr [Json.str "loglevel=4"]),
     ("label", Json.str "L"),
     ("toplevel", Json.str "/a"),
     ("specialisation", Json.obj []),
     ("extensions", Json.obj [])])]

/-- The record the concrete scenario document decodes to. -/
def c7rec : GenerationV1 :=
  GenerationV1.mk "x86_64-linux" "/a/init" "/a/bzImage" ["loglevel=4"] "L" ⟨"/a"⟩
    none none [] []

/-- An otherwise-valid v1 record document carrying an explicit null for the
extensions field (shape of the invalid_v1_json_with_null_extension test). -/
def c3docNullExt : Json :=
  Json.obj [("v1", Json.obj
    [("system", Json.str "x86_64-linux"),
     ("init", Json.str "/a/init"),
     ("kernel", Json.str "/a/bzImage"),
     ("kernelParams", Json.arr [Json.str "loglevel=4"]),
     ("label", Json.str "L"),
     ("toplevel", Json.str "/a"),
     ("specialisation", Json.obj []),
     ("extensions", Json.null)])]

/-- An otherwise-valid v1 record document carrying an explicit null for the
specialisation field (shape of the invalid_v1_json_with_null_specialisation test). -/
def c3docNullSpec : Json :=
  Json.obj [("v1", Json.obj
    [("system", Json.str "x86_64-linux"),
     ("init", Json.str "/a/init"),
     ("kernel", Json.str "/a/bzImage"),
     ("kernelParams", Json.arr [Json.str "loglevel=4"]),
     ("label", Json.str "L"),
     ("toplevel", Json.str "/a"),
     ("specialisation", Json.null)])]

/-- A valid v1 document omitting the specialisation and extensions fields
(shape of the valid_v1_json_without_extension test). -/
def c3docNoMaps : Json :=
  Json.obj [("v1", Json.obj
    [("system", Json.str "x86_64-linux"),
     ("init", Json.str "/a/init"),
     ("kernel", Json.str "/a/bzImage"),
     ("kernelParams", Json.arr [Json.str "loglevel=4"]),
     ("label", Json.str "L"),
     ("toplevel", Json.str "/a")])]

/-- A valid v1 document omitting initrd and initrdSecrets
(shape of the valid_v1_json_without_initrd_and_specialisation test). -/
def c4doc : Json :=
  Json.obj [("v1", Json.obj
    [("system", Json.str "x86_64-linux"),
     ("init", Json.str "/a/init"),
     ("kernel", Json.str "/a/bzImage"),
     ("kernelParams", Json.arr [Json.str "loglevel=4"]),
     ("label", Json.str "L"),
     ("toplevel", Json.str "/a"),
     ("extensions", Json.obj [])])]

/-- A valid v1 document carrying the extension payload of the
valid_v1_json_with_typed_extension test. -/
def c6doc : Json :=
  Json.obj [("v1", Json.obj
    [("system", Json.str "x86_64-linux"),
     ("init", Json.str "/a/init"),
     ("kernel", Json.str "/a/bzImage"),
     ("kernelParams", Json.arr [Json.str "loglevel=4"]),
     ("label", Json.str "L"),
     ("toplevel", Json.str "/a"),
     ("specialisation", Json.obj []),
     ("extensions", Json.obj [("org.test", Json.obj [("key", Json.str "hello")])])])]

/-- The record the extension document decodes to. -/
def c6rec : GenerationV1 :=
  GenerationV1.mk "x86_64-linux" "/a/init" "/a/bzImage" ["loglevel=4"] "L" ⟨"/a"⟩
    none none [] [("org.test", [("key", Json.str "hello")])]

/-- A valid v1 document with an unrecognized extra top-level record field
alongside all required fields. -/
def c8doc : Json :=
  Json.obj [("v1", Json.obj
    [("system", Json.str "x86_64-linux"),
     ("elephants", Json.num 7),
     ("init", Json.str "/a/init"),
     ("kernel", Json.str "/a/bzImage"),
     ("kernelParams", Json.arr [Json.str "loglevel=4"]),
     ("label", Json.str "L"),
     ("toplevel", Json.str "/a")])]

/-- An otherwise-complete v1 record mapping with the required system field absent. -/
def c9docMissingSystem : List (String × Json) :=
  [("init", Json.str "/a/init"),
   ("kernel", Json.str "/a/bzImage"),
   ("kernelParams", Json.arr [Json.str "loglevel=4"]),
   ("label", Json.str "L"),
   ("toplevel", Json.str "/a")]

/-- The required wire fields of a v1 Generation Record. -/
def requiredFieldNames : List String :=
  ["system", "init", "kernel", "kernelParams", "label", "toplevel"]

/-- The wire fields of a v1 Generation Record whose values must be strings. -/
def stringFieldNames : List String := ["system", "init", "kernel", "label", "toplevel"]

theorem decodeStrings_map (xs : List String) :
    decodeStrings (xs.map Json.str) = .ok xs := by
  induction xs with
  | nil => rfl
  | cons x xs ih => simp [decodeStrings, ih, Except.map]

theorem decodeOptPath_encode (o : Option String) :
    decodeOptPath (encodeOptPath o) = .ok o := by
  cases o <;> rfl

theorem decodeExtEntries_map (l : List (String × ExtensionPayload)) :
    decodeExtEntries (l.map fun p => (p.1, Json.obj p.2)) = .ok l := by
  induction l with
  | nil => rfl
  | cons p rest ih => simp [decodeExtEntries, decodeExtPayload, ih, bind, Except.bind]

theorem decodeSpecEntries_encode (l : List (SpecialisationName × GenerationV1))
    (h : ∀ p ∈ l, decodeGenerationV1 (encodeGenerationV1 p.2) = .ok p.2) :
    decodeSpecEntries (encodeSpecEntries l) = .ok l := by
  induction l with
  | nil => rfl
  | cons p rest ih =>
      obtain ⟨n, g⟩ := p
      have hg : decodeGenerationV1 (encodeGenerationV1 g) = .ok g := h (n, g) (by simp)
      have hrest : decodeSpecEntries (encodeSpecEntries rest) = .ok rest := by
        exact ih fun q hq => h q (by simp [hq])
      simp [encodeSpecEntries, decodeSpecEntries, hg, hrest]

/-- C10: the wrapper types SpecialisationName and SystemConfigurationRoot are
wire-transparent: they encode to the same raw value as the bare wrapped
string/path and that raw value decodes back to the wrapper; wrapper equality
is exactly equality of the wrapped values; and the Default values wrap the
empty string and the empty path. -/
theorem claim_C10_wrappers :
    (∀ s : String, encodeSpecialisationName ⟨s⟩ = encodeString s ∧
      decodeSpecialisationName (encodeString s) = .ok ⟨s⟩) ∧
    (∀ p : String, encodeSystemConfigurationRoot ⟨p⟩ = encodePath p ∧
      decodeSystemConfigurationRoot (encodePath p) = .ok ⟨p⟩) ∧
    (∀ a b : SpecialisationName, a = b ↔ a.val = b.val) ∧
    (∀ a b : SystemConfigurationRoot, a = b ↔ a.path = b.path) ∧
    (default : SpecialisationName).val = "" ∧
    (default : SystemConfigurationRoot).path = "" := by
  refine ⟨fun s => ⟨rfl, rfl⟩, fun p => ⟨rfl, rfl⟩, ?_, ?_, rfl, rfl⟩
  · intro a b
    cases a; cases b
    constructor
    · intro h; cases h; rfl
    · intro h; simpa using h
  · intro a b
    cases a; cases b
    constructor
    · intro h; cases h; rfl
    · intro h; simpa using h

/-- C2: a document whose single top-level key is not a recognized version tag
fails with an unknown-variant error naming the offending tag and the
recognized set; a non-mapping input and a mapping with multiple keys also fail
to decode; decoding never silently falls back: it succeeds only on a
single-key mapping whose key is the recognized tag. -/
theorem claim_C2_unknown_version :
    (∀ tag v, tag ≠ "v1" →
      decodeGeneration (Json.obj [(tag, v)]) = .error (.unknownVariant tag ["v1"])) ∧
    (∀ j, (∀ kvs, j ≠ Json.obj kvs) → ∃ e, decodeGeneration j = .error e) ∧
    (∀ kvs, 2 ≤ kvs.length → ∃ e, decodeGeneration (Json.obj kvs) = .error e) ∧
    (∀ kvs g, decodeGeneration (Json.obj kvs) = .ok g → ∃ v, kvs = [("v1", v)]) := by
  refine ⟨?_, ?_, ?_, ?_⟩
  · intro tag v htag
    simp [decodeGeneration, htag]
  · intro j hj
    cases j with
    | obj kvs => exact absurd rfl (hj kvs)
    | null => exact ⟨_, rfl⟩
    | bool b => exact ⟨_, rfl⟩
    | num n => exact ⟨_, rfl⟩
    | str s => exact ⟨_, rfl⟩
    | arr xs => exact ⟨_, rfl⟩
  · intro kvs hlen
    match kvs, hlen with
    | (tag, v) :: p :: rest, _ =>
        by_cases htag : tag = "v1"
        · subst htag
          exact ⟨_, rfl⟩
        · exact ⟨.unknownVariant tag ["v1"], by simp [decodeGeneration, htag]⟩
  · intro kvs g h
    match kvs with
    | [] => simp [decodeGeneration] at h
    | (tag, v) :: rest =>
        by_cases htag : tag = "v1"
        · subst htag
          match rest with
          | [] => exact ⟨v, rfl⟩
          | p :: rest2 => simp [decodeGeneration] at h
        · simp [decodeGeneration, htag] at h

/-- C2 witness: the tag v2 (one more than the schema version, as in the
invalid_json_invalid_version test) is rejected with an unknown-variant error
naming v2 and the recognized set. -/
theorem claim_C2_unknown_version_witness :
    decodeGeneration (Json.obj [("v2", Json.obj [])]) =
      .error (.unknownVariant "v2" ["v1"]) :=
  claim_C2_unknown_version.1 "v2" (Json.obj []) (by decide)

/-- C5: a successfully decoded document has version() equal to the number in
its recognized version tag; version() is the fixed per-variant constant
v1_SCHEMA_VERSION for the V1 variant, equal to the crate-level SCHEMA_VERSION,
which is kept in lockstep with the version-tied filename constant. -/
theorem claim_C5_version_fidelity :
    (∀ j g, decodeGeneration j = .ok g → Generation.version g = SCHEMA_VERSION) ∧
    (∀ tag v g, decodeGeneration (Json.obj [(tag, v)]) = .ok g →
      tag = "v" ++ toString (Generation.version g)) ∧
    (∀ g, (Generation.V1 g).version = v1_SCHEMA_VERSION) ∧
    SCHEMA_VERSION = v1_SCHEMA_VERSION ∧
    JSON_FILENAME = "boot.v" ++ toString SCHEMA_VERSION ++ ".json" := by
  have hver : ∀ j g, decodeGeneration j = .ok g → Generation.version g = SCHEMA_VERSION := by
    intro j g h
    match j with
    | .obj ((tag, v) :: rest) =>
        by_cases htag : tag = "v1"
        · subst htag
          match rest with
          | [] =>
              simp only [decodeGeneration] at h
              cases hd : decodeGenerationV1 v with
              | error e => rw [hd] at h; simp [Except.map] at h
              | ok g1 =>
                  rw [hd] at h
                  simp only [Except.map] at h
                  cases h
                  rfl
          | p :: rest2 => simp [decodeGeneration] at h
        · simp [decodeGeneration, htag] at h
    | .obj [] => simp [decodeGeneration] at h
    | .null => simp [decodeGeneration] at h
    | .bool b => simp [decodeGeneration] at h
    | .num n => simp [decodeGeneration] at h
    | .str s => simp [decodeGeneration] at h
    | .arr xs => simp [decodeGeneration] at h
  refine ⟨hver, ?_, fun g => rfl, rfl, rfl⟩
  · intro tag v g h
    have htag : tag = "v1" := by
      by_cases htag : tag = "v1"
      · exact htag
      · simp [decodeGeneration, htag] at h
    have := hver _ _ h
    rw [htag, this]
    rfl

/-- C5 witness: decoding the concrete v1 scenario document yields a value whose
version() is the schema version. -/
theorem claim_C5_version_fidelity_witness :
    Generation.version (Generation.V1 c7rec) = SCHEMA_VERSION :=
  claim_C5_version_fidelity.1 c7doc (Generation.V1 c7rec) rfl

theorem stepField_unknown {k : String} (v : Json) (b : V1Builder)
    (hk : k ∉ v1FieldNames) : stepField k v b = .ok b := by
  simp only [v1FieldNames, List.mem_cons, List.mem_singleton, not_or] at hk
  obtain ⟨h1, h2, h3, h4, h5, h6, h7, h8, _, h10⟩ := hk
  simp [stepField, h1, h2, h3, h4, h5, h6, h7, h8, h10]

theorem stepField_ok_frame {k : String} {v : Json} {b b2 : V1Builder}
    (h : stepField k v b = .ok b2) :
    b2.specialisation = b.specialisation
    ∧ (k ≠ "system" → b2.system = b.system)
    ∧ (k ≠ "init" → b2.init = b.init)
    ∧ (k ≠ "kernel" → b2.kernel = b.kernel)
    ∧ (k ≠ "kernelParams" → b2.kernelParams = b.kernelParams)
    ∧ (k ≠ "label" → b2.label = b.label)
    ∧ (k ≠ "toplevel" → b2.toplevel = b.toplevel)
    ∧ (k ≠ "initrd" → b2.initrd = b.initrd)
    ∧ (k ≠ "initrdSecrets" → b2.initrdSecrets = b.initrdSecrets)
    ∧ (k ≠ "extensions" → b2.extensions = b.extensions) := by
  unfold stepField at h
  split_ifs at h <;> (repeat' split at h) <;>
    (try (injection h with h; subst b2)) <;> simp_all

theorem finishV1_ok {b : V1Builder} {g : GenerationV1} (h : finishV1 b = .ok g) :
    (∃ s, b.system = some s) ∧ (∃ s, b.init = some s) ∧ (∃ s, b.kernel = some s)
    ∧ (∃ xs, b.kernelParams = some xs) ∧ (∃ s, b.label = some s)
    ∧ (∃ t, b.toplevel = some t)
    ∧ g.initrd = b.initrd.getD none
    ∧ g.initrd_secrets = b.initrdSecrets.getD none
    ∧ g.specialisation = b.specialisation.getD []
    ∧ g.extensions = b.extensions.getD [] := by
  unfold finishV1 at h
  repeat' split at h
  all_goals (try cases h)
  all_goals simp_all [GenerationV1.initrd, GenerationV1.initrd_secrets,
    GenerationV1.specialisation, GenerationV1.extensions]

theorem decodeFields_cons (k : String) (v : Json) (rest : List (String × Json))
    (b : V1Builder) :
    decodeFields ((k, v) :: rest) b =
      match stepEntry k v b with
      | .ok b2 => decodeFields rest b2
      | .error e => .error e := by
  by_cases hk : k = "specialisation"
  · subst hk
    cases hb : b.specialisation with
    | some m => cases v <;> simp [decodeFields, stepEntry, hb]
    | none =>
        cases v with
        | null => simp [decodeFields, stepEntry, hb, typeName]
        | bool b1 => simp [decodeFields, stepEntry, hb, typeName]
        | num n => simp [decodeFields, stepEntry, hb, typeName]
        | str s => simp [decodeFields, stepEntry, hb, typeName]
        | arr xs => simp [decodeFields, stepEntry, hb, typeName]
        | obj svs =>
            cases hs : decodeSpecEntries svs <;>
              simp [decodeFields, stepEntry, hb, hs]
  · cases v <;> simp [decodeFields, stepEntry, hk]

theorem stepEntry_ok_frame {k : String} {v : Json} {b b2 : V1Builder}
    (h : stepEntry k v b = .ok b2) :
    (k ≠ "system" → b2.system = b.system)
    ∧ (k ≠ "init" → b2.init = b.init)
    ∧ (k ≠ "kernel" → b2.kernel = b.kernel)
    ∧ (k ≠ "kernelParams" → b2.kernelParams = b.kernelParams)
    ∧ (k ≠ "label" → b2.label = b.label)
    ∧ (k ≠ "toplevel" → b2.toplevel = b.toplevel)
    ∧ (k ≠ "initrd" → b2.initrd = b.initrd)
    ∧ (k ≠ "initrdSecrets" → b2.initrdSecrets = b.initrdSecrets)
    ∧ (k ≠ "specialisation" → b2.specialisation = b.specialisation)
    ∧ (k ≠ "extensions" → b2.extensions = b.extensions) := by
  by_cases hk : k = "specialisation"
  · subst hk
    unfold stepEntry at h
    rw [if_pos rfl] at h
    (repeat' split at h) <;>
      (try (injection h with h; subst b2)) <;> simp_all
  · rw [stepEntry.eq_def, if_neg hk] at h
    obtain ⟨f0, f1, f2, f3, f4, f5, f6, f7, f8, f9⟩ := stepField_ok_frame h
    exact ⟨f1, f2, f3, f4, f5, f6, f7, f8, fun _ => f0, f9⟩

theorem decodeFields_cons_ok {k : String} {v : Json} {rest : List (String × Json)}
    {b : V1Builder} {g : GenerationV1}
    (h : decodeFields ((k, v) :: rest) b = .ok g) :
    ∃ b2, decodeFields rest b2 = .ok g
      ∧ (k ≠ "system" → b2.system = b.system)
      ∧ (k ≠ "init" → b2.init = b.init)
      ∧ (k ≠ "kernel" → b2.kernel = b.kernel)
      ∧ (k ≠ "kernelParams" → b2.kernelParams = b.kernelParams)
      ∧ (k ≠ "label" → b2.label = b.label)
      ∧ (k ≠ "toplevel" → b2.toplevel = b.toplevel)
      ∧ (k ≠ "initrd" → b2.initrd = b.initrd)
      ∧ (k ≠ "initrdSecrets" → b2.initrdSecrets = b.initrdSecrets)
      ∧ (k ≠ "specialisation" → b2.specialisation = b.specialisation)
      ∧ (k ≠ "extensions" → b2.extensions = b.extensions) := by
  rw [decodeFields_cons] at h
  match hstep : stepEntry k v b with
  | .error e => rw [hstep] at h; cases h
  | .ok b2 =>
      rw [hstep] at h
      exact ⟨b2, h, stepEntry_ok_frame hstep⟩

theorem decodeGenerationV1_obj (kvs : List (String × Json)) :
    decodeGenerationV1 (Json.obj kvs) = decodeFields kvs emptyV1Builder := rfl

theorem stepEntry_unknown {k : String} (v : Json) (b : V1Builder)
    (hk : k ∉ v1FieldNames) : stepEntry k v b = .ok b := by
  have hspec : k ≠ "specialisation" := by
    intro hcontra
    exact hk (by simp [v1FieldNames, hcontra])
  rw [stepEntry.eq_def, if_neg hspec]
  exact stepField_unknown v b hk

theorem stepEntry_ext_null (b : V1Builder) (b2 : V1Builder) :
    stepEntry "extensions" Json.null b ≠ .ok b2 := by
  cases hb : b.extensions <;> simp [stepEntry, stepField, hb, typeName]

theorem stepEntry_spec_null (b : V1Builder) (b2 : V1Builder) :
    stepEntry "specialisation" Json.null b ≠ .ok b2 := by
  cases hb : b.specialisation <;> simp [stepEntry, hb, typeName]

theorem decodeFields_ok_absent_slots :
    ∀ (kvs : List (String × Json)) (b : V1Builder) (g : GenerationV1),
    decodeFields kvs b = .ok g →
    ("extensions" ∉ kvs.map Prod.fst → g.extensions = b.extensions.getD [])
    ∧ ("specialisation" ∉ kvs.map Prod.fst → g.specialisation = b.specialisation.getD [])
    ∧ ("initrd" ∉ kvs.map Prod.fst → g.initrd = b.initrd.getD none)
    ∧ ("initrdSecrets" ∉ kvs.map Prod.fst → g.initrd_secrets = b.initrdSecrets.getD none) := by
  intro kvs
  induction kvs with
  | nil =>
      intro b g h
      obtain ⟨-, -, -, -, -, -, h7, h8, h9, h10⟩ := finishV1_ok h
      exact ⟨fun _ => h10, fun _ => h9, fun _ => h7, fun _ => h8⟩
  | cons p rest ih =>
      intro b g h
      obtain ⟨k, v⟩ := p
      obtain ⟨b2, h2, f1, f2, f3, f4, f5, f6, f7, f8, f9, f10⟩ := decodeFields_cons_ok h
      obtain ⟨i1, i2, i3, i4⟩ := ih b2 g h2
      refine ⟨?_, ?_, ?_, ?_⟩
      · intro habs
        simp only [List.map_cons, List.mem_cons, not_or] at habs
        rw [i1 habs.2, f10 (fun hcontra => habs.1 hcontra.symm)]
      · intro habs
        simp only [List.map_cons, List.mem_cons, not_or] at habs
        rw [i2 habs.2, f9 (fun hcontra => habs.1 hcontra.symm)]
      · intro habs
        simp only [List.map_cons, List.mem_cons, not_or] at habs
        rw [i3 habs.2, f7 (fun hcontra => habs.1 hcontra.symm)]
      · intro habs
        simp only [List.map_cons, List.mem_cons, not_or] at habs
        rw [i4 habs.2, f8 (fun hcontra => habs.1 hcontra.symm)]

theorem decodeFields_ok_required :
    ∀ (kvs : List (String × Json)) (b : V1Builder) (g : GenerationV1),
    decodeFields kvs b = .ok g →
    (b.system = none → "system" ∈ kvs.map Prod.fst)
    ∧ (b.init = none → "init" ∈ kvs.map Prod.fst)
    ∧ (b.kernel = none → "kernel" ∈ kvs.map Prod.fst)
    ∧ (b.kernelParams = none → "kernelParams" ∈ kvs.map Prod.fst)
    ∧ (b.label = none → "label" ∈ kvs.map Prod.fst)
    ∧ (b.toplevel = none → "toplevel" ∈ kvs.map Prod.fst) := by
  intro kvs
  induction kvs with
  | nil =>
      intro b g h
      obtain ⟨⟨s1, e1⟩, ⟨s2, e2⟩, ⟨s3, e3⟩, ⟨s4, e4⟩, ⟨s5, e5⟩, ⟨s6, e6⟩, -⟩ := finishV1_ok h
      refine ⟨?_, ?_, ?_, ?_, ?_, ?_⟩ <;> (intro hnone; simp_all)
  | cons p rest ih =>
      intro b g h
      obtain ⟨k, v⟩ := p
      obtain ⟨b2, h2, f1, f2, f3, f4, f5, f6, f7, f8, f9, f10⟩ := decodeFields_cons_ok h
      obtain ⟨i1, i2, i3, i4, i5, i6⟩ := ih b2 g h2
      refine ⟨?_, ?_, ?_, ?_, ?_, ?_⟩
      · intro hnone
        by_cases hk : k = "system"
        · simp [hk]
        · exact List.mem_cons_of_mem _ (i1 ((f1 hk).trans hnone))
      · intro hnone
        by_cases hk : k = "init"
        · simp [hk]
        · exact List.mem_cons_of_mem _ (i2 ((f2 hk).trans hnone))
      · intro hnone
        by_cases hk : k = "kernel"
        · simp [hk]
        · exact List.mem_cons_of_mem _ (i3 ((f3 hk).trans hnone))
      · intro hnone
        by_cases hk : k = "kernelParams"
        · simp [hk]
        · exact List.mem_cons_of_mem _ (i4 ((f4 hk).trans hnone))
      · intro hnone
        by_cases hk : k = "label"
        · simp [hk]
        · exact List.mem_cons_of_mem _ (i5 ((f5 hk).trans hnone))
      · intro hnone
        by_cases hk : k = "toplevel"
        · simp [hk]
        · exact List.mem_cons_of_mem _ (i6 ((f6 hk).trans hnone))

theorem decodeFields_ok_no_null :
    ∀ (kvs : List (String × Json)) (b : V1Builder) (g : GenerationV1),
    decodeFields kvs b = .ok g →
    ("extensions", Json.null) ∉ kvs ∧ ("specialisation", Json.null) ∉ kvs := by
  intro kvs
  induction kvs with
  | nil => intro b g h; simp
  | cons p rest ih =>
      intro b g h
      obtain ⟨k, v⟩ := p
      rw [decodeFields_cons] at h
      match hstep : stepEntry k v b with
      | .error e => rw [hstep] at h; cases h
      | .ok b2 =>
          rw [hstep] at h
          obtain ⟨i1, i2⟩ := ih b2 g h
          constructor
          · intro hmem
            rcases List.mem_cons.mp hmem with heq | hmem2
            · obtain ⟨hk, hv⟩ := Prod.mk.injEq .. ▸ heq.symm
              subst hk; subst hv
              exact stepEntry_ext_null b b2 hstep
            · exact i1 hmem2
          · intro hmem
            rcases List.mem_cons.mp hmem with heq | hmem2
            · obtain ⟨hk, hv⟩ := Prod.mk.injEq .. ▸ heq.symm
              subst hk; subst hv
              exact stepEntry_spec_null b b2 hstep
            · exact i2 hmem2

theorem decodeFields_insert_unknown {k : String} (v : Json)
    (hk : k ∉ v1FieldNames) :
    ∀ (pre post : List (String × Json)) (b : V1Builder),
    decodeFields (pre ++ (k, v) :: post) b = decodeFields (pre ++ post) b := by
  intro pre
  induction pre with
  | nil =>
      intro post b
      rw [List.nil_append, List.nil_append, decodeFields_cons,
        stepEntry_unknown v b hk]
  | cons q pre2 ih =>
      intro post b
      obtain ⟨k1, v1⟩ := q
      rw [List.cons_append, List.cons_append, decodeFields_cons, decodeFields_cons]
      cases hstep : stepEntry k1 v1 b with
      | error e => rfl
      | ok b2 => exact ih post b2

/-- C3: a v1 record mapping in which the optional map-typed extensions or
specialisation field is absent decodes with an empty mapping for that field;
a successfully decoded mapping never contains an explicit null for either
field (null is never coerced to the empty mapping); and the concrete null
documents fail with an invalid-type error whose rendering is the
expected-a-map message, while the document omitting both fields decodes to a
record with both maps empty. -/
theorem claim_C3_null_vs_absent :
    (∀ kvs g, decodeGenerationV1 (Json.obj kvs) = .ok g →
      ("extensions" ∉ kvs.map Prod.fst → g.extensions = []) ∧
      ("specialisation" ∉ kvs.map Prod.fst → g.specialisation = [])) ∧
    (∀ kvs g, decodeGenerationV1 (Json.obj kvs) = .ok g →
      ("extensions", Json.null) ∉ kvs ∧ ("specialisation", Json.null) ∉ kvs) ∧
    decodeGeneration c3docNoMaps = .ok (.V1 c7rec) ∧
    c7rec.extensions = [] ∧ c7rec.specialisation = [] ∧
    decodeGeneration c3docNullExt = .error (.invalidType "a map" "null") ∧
    decodeGeneration c3docNullSpec = .error (.invalidType "a map" "null") ∧
    (DecodeError.invalidType "a map" "null").render = "invalid type: null, expected a map" := by
  refine ⟨?_, ?_, rfl, rfl, rfl, rfl, rfl, rfl⟩
  · intro kvs g h
    rw [decodeGenerationV1_obj] at h
    obtain ⟨a1, a2, -, -⟩ := decodeFields_ok_absent_slots kvs emptyV1Builder g h
    exact ⟨fun habs => a1 habs, fun habs => a2 habs⟩
  · intro kvs g h
    rw [decodeGenerationV1_obj] at h
    exact decodeFields_ok_no_null kvs emptyV1Builder g h

/-- C3 witness: the general absent-field clause applied to the concrete
mapping without specialisation and extensions yields both maps empty. -/
theorem claim_C3_null_vs_absent_witness :
    c7rec.extensions = [] ∧ c7rec.specialisation = [] := by
  have h := claim_C3_null_vs_absent.1
    [("system", Json.str "x86_64-linux"), ("init", Json.str "/a/init"),
     ("kernel", Json.str "/a/bzImage"), ("kernelParams", Json.arr [Json.str "loglevel=4"]),
     ("label", Json.str "L"), ("toplevel", Json.str "/a")] c7rec rfl
  exact ⟨h.1 (by decide), h.2 (by decide)⟩

/-- C4: a v1 record mapping omitting initrd or initrdSecrets decodes those
fields to no value, and the concrete document omitting them (the shape of the
valid_v1_json_without_initrd_and_specialisation test) decodes successfully
with both fields None. -/
theorem claim_C4_optional_paths :
    (∀ kvs g, decodeGenerationV1 (Json.obj kvs) = .ok g →
      ("initrd" ∉ kvs.map Prod.fst → g.initrd = none) ∧
      ("initrdSecrets" ∉ kvs.map Prod.fst → g.initrd_secrets = none)) ∧
    decodeGeneration c4doc = .ok (.V1 c7rec) ∧
    c7rec.initrd = none ∧ c7rec.initrd_secrets = none := by
  refine ⟨?_, rfl, rfl, rfl⟩
  intro kvs g h
  rw [decodeGenerationV1_obj] at h
  obtain ⟨-, -, a3, a4⟩ := decodeFields_ok_absent_slots kvs emptyV1Builder g h
  exact ⟨fun habs => a3 habs, fun habs => a4 habs⟩

/-- C4 witness: the general clause applied to the concrete mapping without
initrd and initrdSecrets yields both fields None. -/
theorem claim_C4_optional_paths_witness :
    c7rec.initrd = none ∧ c7rec.initrd_secrets = none := by
  have h := claim_C4_optional_paths.1
    [("system", Json.str "x86_64-linux"), ("init", Json.str "/a/init"),
     ("kernel", Json.str "/a/bzImage"), ("kernelParams", Json.arr [Json.str "loglevel=4"]),
     ("label", Json.str "L"), ("toplevel", Json.str "/a"),
     ("extensions", Json.obj [])] c7rec rfl
  exact ⟨h.1 (by decide), h.2 (by decide)⟩

/-- C8: a v1 record mapping containing an unrecognized extra field decodes
exactly as the same mapping without it (the unknown field is ignored), and the
concrete document with such a field alongside all required fields decodes
successfully. -/
theorem claim_C8_extra_field :
    (∀ (pre post : List (String × Json)) (k : String) (v : Json),
      k ∉ v1FieldNames →
      decodeGenerationV1 (Json.obj (pre ++ (k, v) :: post)) =
        decodeGenerationV1 (Json.obj (pre ++ post))) ∧
    decodeGeneration c8doc = .ok (.V1 c7rec) := by
  refine ⟨?_, rfl⟩
  intro pre post k v hk
  rw [decodeGenerationV1_obj, decodeGenerationV1_obj,
    decodeFields_insert_unknown v hk pre post emptyV1Builder]

/-- C8 witness: inserting the unrecognized field elephants into the concrete
mapping leaves decoding unchanged. -/
theorem claim_C8_extra_field_witness :
    decodeGenerationV1 (Json.obj
      ([("system", Json.str "x86_64-linux")] ++ ("elephants", Json.num 7) ::
        [("init", Json.str "/a/init"), ("kernel", Json.str "/a/bzImage"),
         ("kernelParams", Json.arr [Json.str "loglevel=4"]),
         ("label", Json.str "L"), ("toplevel", Json.str "/a")])) =
    decodeGenerationV1 (Json.obj
      ([("system", Json.str "x86_64-linux")] ++
        [("init", Json.str "/a/init"), ("kernel", Json.str "/a/bzImage"),
         ("kernelParams", Json.arr [Json.str "loglevel=4"]),
         ("label", Json.str "L"), ("toplevel", Json.str "/a")])) :=
  claim_C8_extra_field.1 _ _ "elephants" (Json.num 7) (by decide)

/-- C9: a successfully decoded v1 record mapping contains every required
field, the concrete mapping without system fails naming the missing field, a
string-typed field whose value is not a string fails naming expected versus
actual shape (likewise kernelParams for a non-sequence), and decoding is total:
every input yields either a value or an error value, never a crash. -/
theorem claim_C9_failure_modes :
    (∀ kvs g, decodeGenerationV1 (Json.obj kvs) = .ok g →
      ∀ f ∈ requiredFieldNames, f ∈ kvs.map Prod.fst) ∧
    decodeGenerationV1 (Json.obj c9docMissingSystem) = .error (.missingField "system") ∧
    (∀ k v kvs, k ∈ stringFieldNames → (∀ s, v ≠ Json.str s) →
      decodeGenerationV1 (Json.obj ((k, v) :: kvs)) =
        .error (.invalidType "a string" (typeName v))) ∧
    (∀ v kvs, (∀ xs, v ≠ Json.arr xs) →
      decodeGenerationV1 (Json.obj (("kernelParams", v) :: kvs)) =
        .error (.invalidType "a sequence" (typeName v))) ∧
    (∀ j, (∃ g, decodeGeneration j = .ok g) ∨ (∃ e, decodeGeneration j = .error e)) := by
  refine ⟨?_, rfl, ?_, ?_, ?_⟩
  · intro kvs g h f hf
    rw [decodeGenerationV1_obj] at h
    obtain ⟨r1, r2, r3, r4, r5, r6⟩ := decodeFields_ok_required kvs emptyV1Builder g h
    simp only [requiredFieldNames, List.mem_cons, List.not_mem_nil, or_false] at hf
    rcases hf with rfl | rfl | rfl | rfl | rfl | rfl
    · exact r1 rfl
    · exact r2 rfl
    · exact r3 rfl
    · exact r4 rfl
    · exact r5 rfl
    · exact r6 rfl
  · intro k v kvs hk hv
    rw [decodeGenerationV1_obj, decodeFields_cons]
    simp only [stringFieldNames, List.mem_cons, List.not_mem_nil, or_false] at hk
    rcases hk with rfl | rfl | rfl | rfl | rfl <;>
      cases v <;>
        first
          | exact absurd rfl (hv _)
          | simp [stepEntry, stepField, emptyV1Builder, typeName]
  · intro v kvs hv
    rw [decodeGenerationV1_obj, decodeFields_cons]
    cases v <;>
      first
        | exact absurd rfl (hv _)
        | simp [stepEntry, stepField, decodeStringList, emptyV1Builder, typeName]
  · intro j
    cases h : decodeGeneration j with
    | ok g => exact Or.inl ⟨g, rfl⟩
    | error e => exact Or.inr ⟨e, rfl⟩

/-- C9 witness: a number where the kernel path string is expected fails naming
the expected and actual shapes. -/
theorem claim_C9_failure_modes_witness :
    decodeGenerationV1 (Json.obj [("kernel", Json.num 5)]) =
      .error (.invalidType "a string" (typeName (Json.num 5))) :=
  claim_C9_failure_modes.2.2.1 "kernel" (Json.num 5) [] (by decide)
    (fun s h => Json.noConfusion h)

theorem decodeFields_nil (b : V1Builder) : decodeFields [] b = finishV1 b := rfl

theorem decode_encode_v1 : ∀ g : GenerationV1,
    decodeGenerationV1 (encodeGenerationV1 g) = .ok g := by
  have main : ∀ (n : Nat) (g : GenerationV1), sizeOf g = n →
      decodeGenerationV1 (encodeGenerationV1 g) = .ok g := by
    intro n
    induction n using Nat.strong_induction_on with
    | _ n ih =>
        intro g hg
        cases g with
        | mk s i k kp l t ir irs sp ex =>
            have hsp : decodeSpecEntries (encodeSpecEntries sp) = .ok sp := by
              apply decodeSpecEntries_encode
              intro p hp
              refine ih (sizeOf p.2) ?_ p.2 rfl
              have h1 : sizeOf p < sizeOf sp := List.sizeOf_lt_of_mem hp
              have h2 : sizeOf p.2 < sizeOf p := by
                obtain ⟨a, b⟩ := p
                simp
              have h3 : sizeOf sp < sizeOf (GenerationV1.mk s i k kp l t ir irs sp ex) := by
                simp
                omega
              omega
            simp only [encodeGenerationV1, decodeGenerationV1_obj]
            simp [decodeFields_cons, decodeFields_nil, stepEntry, stepField,
              emptyV1Builder, finishV1, hsp, decodeStringList, decodeStrings_map,
              decodeOptPath_encode, decodeExtEntries_map, typeName]
  exact fun g => main (sizeOf g) g rfl

/-- C1: the round-trip law: for every Generation record of a supported
version, decoding the document produced by encoding it yields the same record,
with structural equality over all fields, recursively including nested
specialisation records and opaque extension payloads. -/
theorem claim_C1_roundtrip (G : Generation) :
    decodeGeneration (encodeGeneration G) = .ok G := by
  cases G with
  | V1 g =>
      simp [encodeGeneration, decodeGeneration, decode_encode_v1 g, Except.map]

/-- C7: decoding the literal concrete-scenario document succeeds, the record
has system x86_64-linux, no initrd and an empty specialisation map, and
re-encoding that record yields a document that decodes back to the same record
(the encode-after-decode direction). -/
theorem claim_C7_concrete_scenario :
    decodeGeneration c7doc = .ok (.V1 c7rec) ∧
    c7rec.system = "x86_64-linux" ∧ c7rec.initrd = none ∧ c7rec.specialisation = [] ∧
    decodeGeneration (encodeGeneration (.V1 c7rec)) = .ok (.V1 c7rec) :=
  ⟨rfl, rfl, rfl, rfl, rfl⟩

theorem decodeTestOptionalExtension_go_absent :
    ∀ kvs : ExtensionPayload, "key" ∉ kvs.map Prod.fst →
    decodeTestOptionalExtension.go kvs none = .ok none := by
  intro kvs
  induction kvs with
  | nil => intro h; rfl
  | cons p rest ih =>
      intro h
      obtain ⟨k, v⟩ := p
      simp only [List.map_cons, List.mem_cons, not_or] at h
      have hk : ¬k = "key" := fun hc => h.1 hc.symm
      rw [decodeTestOptionalExtension.go, if_neg hk]
      exact ih h.2

/-- C6: decoding the document whose extensions carry org.test mapped to key
hello succeeds with the payload held as opaque structured data; retyping that
payload against the TestExtension shape (field test aliased from the wire
name key) yields test hello; and retyping any payload without the key entry
against the optional TestOptionalExtension shape yields no value rather than
failing. -/
theorem claim_C6_extension_retyping :
    decodeGeneration c6doc = .ok (.V1 c6rec) ∧
    c6rec.extensions = [("org.test", [("key", Json.str "hello")])] ∧
    decodeTestExtension [("key", Json.str "hello")] = .ok ⟨"hello"⟩ ∧
    (∀ kvs : ExtensionPayload, "key" ∉ kvs.map Prod.fst →
      decodeTestOptionalExtension kvs = .ok ⟨none⟩) := by
  refine ⟨rfl, rfl, rfl, ?_⟩
  intro kvs h
  rw [decodeTestOptionalExtension, decodeTestOptionalExtension_go_absent kvs h]

/-- C6 witness: a payload carrying only an unrelated entry retypes against the
optional shape to no value. -/
theorem claim_C6_extension_retyping_witness :
    decodeTestOptionalExtension [("other", Json.num 1)] = .ok ⟨none⟩ :=
  claim_C6_extension_retyping.2.2.2 [("other", Json.num 1)] (by decide)

end Bootspec
